import Mathlib

/-!
# PUI-Admin: the terminal UI state machine

A shallow embedding of `ui.go` (the `model`, `initialModel`, `model.Update`,
`model.fetchTableData`) and of `db.go` (`connectToDatabase`, `fetchTables`,
`fetchRowCount`), followed by theorems about them.

Conventions of the embedding:

* Go `int` is `Int`; arithmetic goes through `wrapInt` (two's complement, 64 bit) and
  Go's `%` is `goMod` (truncated remainder, `none` for a zero divisor).
* A run-time panic (index out of range, integer divide by zero, nil pointer, write to
  a nil map) is the result `none`.
* The record types of the two UI libraries (`tea.KeyMsg`, `tea.Msg`, `tea.Cmd`,
  `textinput.Model`) are written out as far as the program touches them.  The one
  library function with real behaviour, `textinput.Model.Update`, is a parameter
  `tiUpdate` of `model.Update`; what a theorem needs from it is a stated hypothesis.
* The database reached through `sqlx` is a parameter `sqlx.Backend`.
* `go m.fetchTableData()` and the call of `connectToDatabase` are recorded in the
  `effects` list of the result of `model.Update`; `model.fetchTableData` itself is a
  function from the model it is called on to the model it leaves behind.
* The rendering (`View` and the `render...` methods) and `config.go` are not part of
  the embedding: no theorem below is about them.
-/

/-! ## Go integers -/

/-- Two's complement wrap-around of a Go `int` (64 bit). -/
def wrapInt (x : Int) : Int :=
  (x + 9223372036854775808) % 18446744073709551616 - 9223372036854775808

/-- Go's `a % b` on `int`: the remainder of the truncated division; a zero divisor
is a run-time panic. -/
def goMod (a b : Int) : Option Int :=
  if b = 0 then none else some (Int.tmod a b)

/-! ## The bubbletea types used by `ui.go` -/

namespace tea

/-- The key types of bubbletea that matter to the program, and a few more. -/
inductive KeyType
  | KeyRunes
  | KeyEnter
  | KeyTab
  | KeyShiftTab
  | KeyUp
  | KeyDown
  | KeyLeft
  | KeyRight
  | KeyCtrlC
  | KeyBackspace
  | KeyEsc
  deriving DecidableEq, Repr

/-- The record `tea.KeyMsg` (`Type` is written `Type_`). -/
structure KeyMsg where
  Type_ : KeyType
  Runes : List Char
  Alt : Bool
  deriving DecidableEq, Repr

/-- The table `keyNames` of bubbletea. -/
def keyNames : KeyType → String
  | .KeyRunes => "runes"
  | .KeyEnter => "enter"
  | .KeyTab => "tab"
  | .KeyShiftTab => "shift+tab"
  | .KeyUp => "up"
  | .KeyDown => "down"
  | .KeyLeft => "left"
  | .KeyRight => "right"
  | .KeyCtrlC => "ctrl+c"
  | .KeyBackspace => "backspace"
  | .KeyEsc => "esc"

/-- The method `msg.String()`: the text `model.Update` dispatches on. -/
def KeyMsg.String (k : KeyMsg) : String :=
  (if k.Alt then "alt+" else "") ++
    (if k.Type_ = KeyType.KeyRunes then k.Runes.asString else keyNames k.Type_)

/-- A message `tea.Msg`: a key, a window size, or a message of any other type. -/
inductive Msg
  | KeyMsg (k : KeyMsg)
  | WindowSizeMsg (Width Height : Int)
  | other (tag : Nat)

/-- A non-nil command `tea.Cmd`; `nil` is `none : Option Cmd`. -/
inductive Cmd
  | Quit
  | other (tag : Nat)
  deriving DecidableEq, Repr

end tea

/-! ## The text field of the bubbles library -/

namespace textinput

/-- The echo modes of a text field. -/
inductive EchoMode
  | EchoNormal
  | EchoPassword
  | EchoNone
  deriving DecidableEq, Repr

/-- The record `textinput.Model`, as far as the program reads or writes it: the
exported fields `ui.go` assigns, the text, the focus flag and the cursor. -/
structure Model where
  Placeholder : String
  EchoMode : EchoMode
  EchoCharacter : Char
  value : List Char
  focus : Bool
  pos : Nat
  deriving DecidableEq, Repr

/-- The constructor `textinput.New()`: an empty field without focus. -/
def New : Model :=
  { Placeholder := "", EchoMode := EchoMode.EchoNormal, EchoCharacter := '*',
    value := [], focus := false, pos := 0 }

/-- The method `Focus()`. -/
def Model.Focus (t : Model) : Model := { t with focus := true }

/-- The method `Blur()`. -/
def Model.Blur (t : Model) : Model := { t with focus := false }

/-- The method `Focused()`. -/
def Model.Focused (t : Model) : Bool := t.focus

/-- The method `Value()`. -/
def Model.Value (t : Model) : String := t.value.asString

/-- The type of the method `Update(msg)` of a text field: the new field and a
command, `none` for `nil`. -/
abbrev UpdateFn := Model → tea.Msg → Model × Option tea.Cmd

/-- A text field never changes its own focus flag in `Update`. -/
def KeepsFocus (tiUpdate : UpdateFn) : Prop :=
  ∀ t msg, (tiUpdate t msg).1.focus = t.focus

/-- A text field never asks the program to quit. -/
def NeverQuits (tiUpdate : UpdateFn) : Prop :=
  ∀ t msg, (tiUpdate t msg).2 ≠ some tea.Cmd.Quit

/-- A text field is left as it is by a window size message. -/
def IgnoresResize (tiUpdate : UpdateFn) : Prop :=
  ∀ t w h, (tiUpdate t (tea.Msg.WindowSizeMsg w h)).1 = t

/-- A text field without focus is left as it is by every message and answers `nil`. -/
def IdleWithoutFocus (tiUpdate : UpdateFn) : Prop :=
  ∀ t msg, t.focus = false → tiUpdate t msg = (t, none)

/-- The text of a field is the same after the message `msg`. -/
def KeepsValueOn (tiUpdate : UpdateFn) (msg : tea.Msg) : Prop :=
  ∀ t, (tiUpdate t msg).1.Value = t.Value

/-- Inserting `rs` at position `pos` of `value`. -/
def insertAt (value : List Char) (pos : Nat) (rs : List Char) : List Char :=
  value.take pos ++ rs ++ value.drop pos

/-- A basic text field, used where a concrete `Update` is needed: without focus it
ignores the message; with focus, typed runes (no `Alt`) are inserted at the cursor,
backspace deletes the rune before the cursor, left and right move the cursor, and
every other message leaves the field as it is.  The answer is always `nil`. -/
def basicUpdate : UpdateFn := fun t msg =>
  if t.focus = false then (t, none)
  else
    match msg with
    | tea.Msg.KeyMsg k =>
      if k.Alt then (t, none)
      else
        match k.Type_ with
        | tea.KeyType.KeyRunes =>
          ({ t with value := insertAt t.value t.pos k.Runes, pos := t.pos + k.Runes.length }, none)
        | tea.KeyType.KeyBackspace =>
          if t.pos = 0 then (t, none)
          else ({ t with value := t.value.take (t.pos - 1) ++ t.value.drop t.pos,
                         pos := t.pos - 1 }, none)
        | tea.KeyType.KeyLeft => ({ t with pos := t.pos - 1 }, none)
        | tea.KeyType.KeyRight => ({ t with pos := min (t.pos + 1) t.value.length }, none)
        | _ => (t, none)
    | _ => (t, none)

end textinput

/-! ## `db.go` -/

/-- A database handle `*sqlx.DB` (non-nil). -/
structure DB where
  handle : Nat
  deriving DecidableEq, Repr

/-- The record `DBConfig`. -/
structure DBConfig where
  User : String
  Password : String
  Host : String
  Port : String
  DBName : String
  deriving DecidableEq, Repr

namespace sqlx

/-- The database side of the four `sqlx` calls of `db.go`.  An error is its text
(`err.Error()`): `Connect driverName connStr`, `Ping db` (`none` for a `nil` error),
`Select db query` (the rows of a one-column query) and `Get db query` (one integer). -/
structure Backend where
  Connect : String → String → Except String DB
  Ping : DB → Option String
  Select : DB → String → Except String (List String)
  Get : DB → String → Except String Int

end sqlx

/-- The function `connectToDatabase` of `db.go`. -/
def connectToDatabase (w : sqlx.Backend) (config : DBConfig) : Except String DB :=
  let connStr := "user=" ++ config.User ++ " password=" ++ config.Password ++
    " host=" ++ config.Host ++ " port=" ++ config.Port ++ " dbname=" ++ config.DBName ++
    " sslmode=disable"
  match w.Connect "postgres" connStr with
  | Except.error err => Except.error ("failed to connect to the database: " ++ err)
  | Except.ok db =>
    match w.Ping db with
    | some err => Except.error ("could not ping the database: " ++ err)
    | none => Except.ok db

/-- The function `fetchTables` of `db.go`. -/
def fetchTables (w : sqlx.Backend) (db : DB) : Except String (List String) :=
  let query := "SELECT table_name FROM information_schema.tables WHERE table_schema = 'public'"
  match w.Select db query with
  | Except.error err => Except.error ("failed to fetch tables: " ++ err)
  | Except.ok tables => Except.ok tables

/-- The function `fetchRowCount` of `db.go`. -/
def fetchRowCount (w : sqlx.Backend) (db : DB) (tableName : String) : Except String Int :=
  let query := "SELECT COUNT(*) FROM " ++ tableName
  match w.Get db query with
  | Except.error err =>
    Except.error ("failed to fetch row count for table " ++ tableName ++ ": " ++ err)
  | Except.ok rowCount => Except.ok rowCount

/-! ## `ui.go` -/

/-- UI state `stateConfigWizard` (the input form). -/
def stateConfigWizard : Int := 0

/-- UI state `stateConnected` (the dashboard). -/
def stateConnected : Int := 1

/-- UI state `stateError` (the error screen). -/
def stateError : Int := 2

/-- UI state `stateQuerying` (connecting: the table data is being fetched). -/
def stateQuerying : Int := 3

/-- The record `model`.  `db` is `none` for a nil pointer, `tableRowCount` is `none`
for a nil map and otherwise the lookup of the map (`none` for an absent key). -/
structure model where
  state : Int
  configInputs : List textinput.Model
  focusedInput : Int
  content : String
  errorMessage : String
  width : Int
  height : Int
  selectedTab : Int
  db : Option DB
  tables : List String
  tableRowCount : Option (String → Option Int)

/-- The function `initialModel`. -/
def initialModel : model :=
  let input0 := { textinput.New with Placeholder := "Username" }
  let input1 := { textinput.New with Placeholder := "Password",
                                     EchoMode := textinput.EchoMode.EchoPassword,
                                     EchoCharacter := '*' }
  let input2 := { textinput.New with Placeholder := "Host" }
  let input3 := { textinput.New with Placeholder := "Port (default 5432)" }
  let input4 := { textinput.New with Placeholder := "Database Name" }
  { state := stateConfigWizard,
    configInputs := [input0.Focus, input1, input2, input3, input4],
    focusedInput := 0,
    content := "",
    errorMessage := "",
    width := 0,
    height := 0,
    selectedTab := 0,
    db := none,
    tables := [],
    tableRowCount := some (fun _ => none) }

/-- The loop `for i := range m.configInputs` of the focus keys, from index `i` on:
the field at `focusedInput` gets `Focus()`, every other one `Blur()`. -/
def focusLoop (focusedInput : Int) : Nat → List textinput.Model → List textinput.Model
  | _, [] => []
  | i, t :: rest =>
    (if (i : Int) = focusedInput then t.Focus else t.Blur) :: focusLoop focusedInput (i + 1) rest

/-- The loop at the end of `Update` (lines 197 to 203): every field gets the
message in turn; the first non-nil command ends the loop (and `Update`) at once,
the fields after it are not updated. -/
def updateInputs (tiUpdate : textinput.UpdateFn) (msg : tea.Msg) :
    List textinput.Model → List textinput.Model × Option tea.Cmd
  | [] => ([], none)
  | t :: rest =>
    match tiUpdate t msg with
    | (t1, some cmd) => (t1 :: rest, some cmd)
    | (t1, none) => ((t1 :: (updateInputs tiUpdate msg rest).1), (updateInputs tiUpdate msg rest).2)

/-- What `Update` did besides computing its result: the call `connectToDatabase(config)`
and the statement `go m.fetchTableData()`, with the value `m` has at that point. -/
inductive Effect
  | connectToDatabase (config : DBConfig)
  | goFetchTableData (m : model)

/-- The result of `Update`: the returned model, the returned command and the
calls made on the way, in order. -/
structure UpdateResult where
  m : model
  cmd : Option tea.Cmd
  effects : List Effect

/-- The end of `Update`: the loop over the fields, then `return m, cmd` or
`return m, nil`. -/
def finishUpdate (tiUpdate : textinput.UpdateFn) (m : model) (msg : tea.Msg)
    (effects : List Effect) : UpdateResult :=
  { m := { m with configInputs := (updateInputs tiUpdate msg m.configInputs).1 },
    cmd := (updateInputs tiUpdate msg m.configInputs).2,
    effects := effects }

/-- The method `model.Update`. -/
def model.Update (tiUpdate : textinput.UpdateFn) (w : sqlx.Backend) (m : model)
    (msg : tea.Msg) : Option UpdateResult :=
  match msg with
  | tea.Msg.KeyMsg k =>
    if m.state = stateConfigWizard then
      if k.String = "ctrl+c" then
        some { m := m, cmd := some tea.Cmd.Quit, effects := [] }
      else if k.String = "tab" ∨ k.String = "down" then
        match goMod (wrapInt (m.focusedInput + 1)) m.configInputs.length with
        | none => none
        | some f =>
          some (finishUpdate tiUpdate
            { m with focusedInput := f, configInputs := focusLoop f 0 m.configInputs } msg [])
      else if k.String = "shift+tab" ∨ k.String = "up" then
        match goMod (wrapInt (wrapInt (m.focusedInput - 1) + m.configInputs.length))
            m.configInputs.length with
        | none => none
        | some f =>
          some (finishUpdate tiUpdate
            { m with focusedInput := f, configInputs := focusLoop f 0 m.configInputs } msg [])
      else if k.String = "enter" then
        match m.configInputs[0]?, m.configInputs[1]?, m.configInputs[2]?,
            m.configInputs[3]?, m.configInputs[4]? with
        | some i0, some i1, some i2, some i3, some i4 =>
          let config : DBConfig :=
            { User := i0.Value, Password := i1.Value, Host := i2.Value, Port := i3.Value,
              DBName := i4.Value }
          match connectToDatabase w config with
          | Except.error err =>
            some (finishUpdate tiUpdate { m with errorMessage := err, state := stateError } msg
              [Effect.connectToDatabase config])
          | Except.ok db =>
            some (finishUpdate tiUpdate { m with db := some db, state := stateQuerying } msg
              [Effect.connectToDatabase config,
               Effect.goFetchTableData { m with db := some db, state := stateQuerying }])
        | _, _, _, _, _ => none
      else some (finishUpdate tiUpdate m msg [])
    else if m.state = stateError then
      if k.String = "enter" then
        some (finishUpdate tiUpdate { m with state := stateConfigWizard } msg [])
      else if k.String = "ctrl+c" then
        some { m := m, cmd := some tea.Cmd.Quit, effects := [] }
      else some (finishUpdate tiUpdate m msg [])
    else if m.state = stateConnected then
      if k.String = "ctrl+c" ∨ k.String = "q" then
        some { m := m, cmd := some tea.Cmd.Quit, effects := [] }
      else if k.String = "left" then
        some (finishUpdate tiUpdate
          { m with selectedTab := Int.tmod (wrapInt (wrapInt (m.selectedTab - 1) + 4)) 4 } msg [])
      else if k.String = "right" then
        some (finishUpdate tiUpdate
          { m with selectedTab := Int.tmod (wrapInt (m.selectedTab + 1)) 4 } msg [])
      else some (finishUpdate tiUpdate m msg [])
    else some (finishUpdate tiUpdate m msg [])
  | tea.Msg.WindowSizeMsg width height =>
    some (finishUpdate tiUpdate { m with width := width, height := height } msg [])
  | tea.Msg.other _ => some (finishUpdate tiUpdate m msg [])

/-- The loop of `fetchTableData` over the listed tables (lines 223 to 234): the
first failing row count stops with the error screen; a row count that succeeds is
written into the map, which panics for a nil map; after the last table the state is
`stateConnected`. -/
def fetchRowCounts (w : sqlx.Backend) (db : DB) : List String → model → Option model
  | [], m => some { m with state := stateConnected }
  | table :: rest, m =>
    match fetchRowCount w db table with
    | Except.error err =>
      some { m with
        errorMessage := "Failed to fetch row count for table " ++ table ++ ": " ++ err,
        state := stateError }
    | Except.ok rowCount =>
      match m.tableRowCount with
      | none => none
      | some rc =>
        fetchRowCounts w db rest
          { m with tableRowCount := some (fun k => if k = table then some rowCount else rc k) }

/-- The method `model.fetchTableData`, returning the model it leaves behind; a nil
`m.db` is a nil pointer dereference inside the first query. -/
def model.fetchTableData (w : sqlx.Backend) (m : model) : Option model :=
  match m.db with
  | none => none
  | some db =>
    match fetchTables w db with
    | Except.error err =>
      some { m with errorMessage := "Failed to load tables: " ++ err, state := stateError }
    | Except.ok tables => fetchRowCounts w db tables { m with tables := tables }

/-- Applying `Update` to a list of messages in turn, keeping the model only. -/
def runUpdates (tiUpdate : textinput.UpdateFn) (w : sqlx.Backend) :
    model → List tea.Msg → Option model
  | m, [] => some m
  | m, msg :: rest =>
    match m.Update tiUpdate w msg with
    | none => none
    | some r => runUpdates tiUpdate w r.m rest

/-- The states `Update` can reach from `initialModel` through key and window size
messages, whatever the database answers. -/
inductive Reachable (tiUpdate : textinput.UpdateFn) : model → Prop
  | init : Reachable tiUpdate initialModel
  | key (m : model) (w : sqlx.Backend) (k : tea.KeyMsg) (r : UpdateResult) :
      Reachable tiUpdate m → m.Update tiUpdate w (tea.Msg.KeyMsg k) = some r →
      Reachable tiUpdate r.m
  | resize (m : model) (w : sqlx.Backend) (width height : Int) (r : UpdateResult) :
      Reachable tiUpdate m → m.Update tiUpdate w (tea.Msg.WindowSizeMsg width height) = some r →
      Reachable tiUpdate r.m

/-- A backend for examples: every connection fails. -/
def refusingBackend : sqlx.Backend :=
  { Connect := fun _ _ => Except.error "connection refused",
    Ping := fun _ => none,
    Select := fun _ _ => Except.ok [],
    Get := fun _ _ => Except.ok 0 }

/-! ## Concrete keys, states and backends used in the examples -/

/-- The key Tab. -/
def keyTab : tea.KeyMsg := { Type_ := tea.KeyType.KeyTab, Runes := [], Alt := false }

/-- The key Enter. -/
def keyEnter : tea.KeyMsg := { Type_ := tea.KeyType.KeyEnter, Runes := [], Alt := false }

/-- The key Ctrl+C. -/
def keyCtrlC : tea.KeyMsg := { Type_ := tea.KeyType.KeyCtrlC, Runes := [], Alt := false }

/-- The key Left. -/
def keyLeft : tea.KeyMsg := { Type_ := tea.KeyType.KeyLeft, Runes := [], Alt := false }

/-- The typed letter `a`. -/
def keyA : tea.KeyMsg := { Type_ := tea.KeyType.KeyRunes, Runes := ['a'], Alt := false }

/-- A backend on which every connection succeeds and the database has the tables
`users` (3 rows) and `orders` (0 rows). -/
def usersOrdersBackend : sqlx.Backend :=
  { Connect := fun _ _ => Except.ok { handle := 1 },
    Ping := fun _ => none,
    Select := fun _ _ => Except.ok ["users", "orders"],
    Get := fun _ query =>
      if query = "SELECT COUNT(*) FROM users" then Except.ok 3
      else if query = "SELECT COUNT(*) FROM orders" then Except.ok 0
      else Except.error "relation does not exist" }

/-- A backend like `usersOrdersBackend` on which counting the rows of `orders` fails. -/
def ordersDeniedBackend : sqlx.Backend :=
  { Connect := fun _ _ => Except.ok { handle := 1 },
    Ping := fun _ => none,
    Select := fun _ _ => Except.ok ["users", "orders"],
    Get := fun _ query =>
      if query = "SELECT COUNT(*) FROM users" then Except.ok 3
      else Except.error "permission denied" }

/-- A backend on which listing the tables fails. -/
def listingDeniedBackend : sqlx.Backend :=
  { Connect := fun _ _ => Except.ok { handle := 1 },
    Ping := fun _ => none,
    Select := fun _ _ => Except.error "permission denied",
    Get := fun _ _ => Except.ok 0 }

/-- The state after a successful connection from the initial form: connecting. -/
def queryingModel : model :=
  { initialModel with state := stateQuerying, db := some { handle := 1 } }

/-- An error screen state. -/
def errorModel : model :=
  { initialModel with
    state := stateError,
    errorMessage := "failed to connect to the database: connection refused" }

/-- A dashboard state. -/
def dashboardModel : model :=
  { initialModel with
    state := stateConnected, db := some { handle := 1 }, tables := ["users", "orders"],
    tableRowCount := some (fun k => if k = "orders" then some 0
                                    else if k = "users" then some 3 else none) }

/-! ## Lemmas on the loops and on Go arithmetic -/

theorem wrapInt_of_small (x : Int) (h0 : -9223372036854775808 ≤ x)
    (h1 : x < 9223372036854775808) : wrapInt x = x := by
  unfold wrapInt
  omega

theorem focusLoop_length (f : Int) (l : List textinput.Model) (i : Nat) :
    (focusLoop f i l).length = l.length := by
  induction l generalizing i with
  | nil => rfl
  | cons t rest ih => simp [focusLoop, ih]

theorem updateInputs_length (tiUpdate : textinput.UpdateFn) (msg : tea.Msg)
    (l : List textinput.Model) : (updateInputs tiUpdate msg l).1.length = l.length := by
  induction l with
  | nil => rfl
  | cons t rest ih =>
    unfold updateInputs
    split <;> simp [ih]

theorem finishUpdate_m (tiUpdate : textinput.UpdateFn) (m : model) (msg : tea.Msg)
    (effects : List Effect) :
    (finishUpdate tiUpdate m msg effects).m =
      { m with configInputs := (updateInputs tiUpdate msg m.configInputs).1 } := rfl

/-- One Tab or Down on the input form. -/
theorem Update_tab (tiUpdate : textinput.UpdateFn) (w : sqlx.Backend) (m : model)
    (k : tea.KeyMsg) (hs : m.state = stateConfigWizard) (hlen : m.configInputs.length = 5)
    (hf0 : 0 ≤ m.focusedInput) (hf5 : m.focusedInput < 5)
    (hk : k.String = "tab" ∨ k.String = "down") :
    m.Update tiUpdate w (tea.Msg.KeyMsg k) =
      some (finishUpdate tiUpdate
        { m with focusedInput := (m.focusedInput + 1) % 5,
                 configInputs := focusLoop ((m.focusedInput + 1) % 5) 0 m.configInputs }
        (tea.Msg.KeyMsg k) []) := by
  have hw : wrapInt (m.focusedInput + 1) = m.focusedInput + 1 :=
    wrapInt_of_small _ (by omega) (by omega)
  have hmod : Int.tmod (m.focusedInput + 1) 5 = (m.focusedInput + 1) % 5 := by
    rw [Int.tmod_eq_emod (by omega) (by omega)]
  rcases hk with h | h <;>
    simp [model.Update, hs, h, hlen, hw, goMod, hmod]

/-- One ShiftTab or Up on the input form. -/
theorem Update_shiftTab (tiUpdate : textinput.UpdateFn) (w : sqlx.Backend) (m : model)
    (k : tea.KeyMsg) (hs : m.state = stateConfigWizard) (hlen : m.configInputs.length = 5)
    (hf0 : 0 ≤ m.focusedInput) (hf5 : m.focusedInput < 5)
    (hk : k.String = "shift+tab" ∨ k.String = "up") :
    m.Update tiUpdate w (tea.Msg.KeyMsg k) =
      some (finishUpdate tiUpdate
        { m with focusedInput := (m.focusedInput - 1 + 5) % 5,
                 configInputs := focusLoop ((m.focusedInput - 1 + 5) % 5) 0 m.configInputs }
        (tea.Msg.KeyMsg k) []) := by
  have hw1 : wrapInt (m.focusedInput - 1) = m.focusedInput - 1 :=
    wrapInt_of_small _ (by omega) (by omega)
  have hw : wrapInt (m.focusedInput - 1 + 5) = m.focusedInput - 1 + 5 :=
    wrapInt_of_small _ (by omega) (by omega)
  have hmod : Int.tmod (m.focusedInput - 1 + 5) 5 = (m.focusedInput - 1 + 5) % 5 := by
    rw [Int.tmod_eq_emod (by omega) (by omega)]
  rcases hk with h | h <;>
    simp [model.Update, hs, h, hlen, hw1, hw, goMod, hmod]

/-- Any number of Tab or Down presses on the input form. -/
theorem runUpdates_tab (tiUpdate : textinput.UpdateFn) (w : sqlx.Backend)
    (ks : List tea.KeyMsg) :
    ∀ m : model, m.state = stateConfigWizard → m.configInputs.length = 5 →
      0 ≤ m.focusedInput → m.focusedInput < 5 →
      (∀ k ∈ ks, k.String = "tab" ∨ k.String = "down") →
      ∃ m1, runUpdates tiUpdate w m (ks.map tea.Msg.KeyMsg) = some m1 ∧
        m1.state = stateConfigWizard ∧ m1.configInputs.length = 5 ∧
        m1.focusedInput = (m.focusedInput + ks.length) % 5 := by
  induction ks with
  | nil =>
    intro m hs hlen hf0 hf5 _
    refine ⟨m, rfl, hs, hlen, ?_⟩
    simp only [List.length_nil, Nat.cast_zero, add_zero]
    omega
  | cons k rest ih =>
    intro m hs hlen hf0 hf5 hks
    have hk := hks k (List.mem_cons_self _ _)
    have hrest : ∀ k1 ∈ rest, k1.String = "tab" ∨ k1.String = "down" :=
      fun k1 h1 => hks k1 (List.mem_cons_of_mem _ h1)
    obtain ⟨m1, hrun, hs1, hlen1, hf1⟩ :=
      ih (finishUpdate tiUpdate
        { m with focusedInput := (m.focusedInput + 1) % 5,
                 configInputs := focusLoop ((m.focusedInput + 1) % 5) 0 m.configInputs }
        (tea.Msg.KeyMsg k) []).m
        (by simpa [finishUpdate_m] using hs)
        (by simp [finishUpdate_m, updateInputs_length, focusLoop_length, hlen])
        (by simp only [finishUpdate_m]; omega)
        (by simp only [finishUpdate_m]; omega)
        hrest
    refine ⟨m1, ?_, hs1, hlen1, ?_⟩
    · simp only [List.map_cons, runUpdates, Update_tab tiUpdate w m k hs hlen hf0 hf5 hk]
      exact hrun
    · rw [hf1]
      simp only [finishUpdate_m, List.length_cons, Nat.cast_add, Nat.cast_one]
      omega

/-- Any number of ShiftTab or Up presses on the input form. -/
theorem runUpdates_shiftTab (tiUpdate : textinput.UpdateFn) (w : sqlx.Backend)
    (ks : List tea.KeyMsg) :
    ∀ m : model, m.state = stateConfigWizard → m.configInputs.length = 5 →
      0 ≤ m.focusedInput → m.focusedInput < 5 →
      (∀ k ∈ ks, k.String = "shift+tab" ∨ k.String = "up") →
      ∃ m1, runUpdates tiUpdate w m (ks.map tea.Msg.KeyMsg) = some m1 ∧
        m1.state = stateConfigWizard ∧ m1.configInputs.length = 5 ∧
        m1.focusedInput = (m.focusedInput - ks.length) % 5 := by
  induction ks with
  | nil =>
    intro m hs hlen hf0 hf5 _
    refine ⟨m, rfl, hs, hlen, ?_⟩
    simp only [List.length_nil, Nat.cast_zero, sub_zero]
    omega
  | cons k rest ih =>
    intro m hs hlen hf0 hf5 hks
    have hk := hks k (List.mem_cons_self _ _)
    have hrest : ∀ k1 ∈ rest, k1.String = "shift+tab" ∨ k1.String = "up" :=
      fun k1 h1 => hks k1 (List.mem_cons_of_mem _ h1)
    obtain ⟨m1, hrun, hs1, hlen1, hf1⟩ :=
      ih (finishUpdate tiUpdate
        { m with focusedInput := (m.focusedInput - 1 + 5) % 5,
                 configInputs := focusLoop ((m.focusedInput - 1 + 5) % 5) 0 m.configInputs }
        (tea.Msg.KeyMsg k) []).m
        (by simpa [finishUpdate_m] using hs)
        (by simp [finishUpdate_m, updateInputs_length, focusLoop_length, hlen])
        (by simp only [finishUpdate_m]; omega)
        (by simp only [finishUpdate_m]; omega)
        hrest
    refine ⟨m1, ?_, hs1, hlen1, ?_⟩
    · simp only [List.map_cons, runUpdates, Update_shiftTab tiUpdate w m k hs hlen hf0 hf5 hk]
      exact hrun
    · rw [hf1]
      simp only [finishUpdate_m, List.length_cons, Nat.cast_add, Nat.cast_one]
      omega

/-! ## C1: focus cycling on the input form -/

/-- C1: on the input form (`stateConfigWizard`) with five fields and `focusedInput = f`
in `[0,5)`, Tab or Down sets `focusedInput` to `(f+1) mod 5` and ShiftTab or Up sets it
to `(f-1+5) mod 5`, the screen staying the input form; any five Tab/Down presses (and
any five ShiftTab/Up presses) bring `focusedInput` back to `f`, stay on the input form
after every press, and pass through every index of `[0,5)`. -/
theorem C1_focus_cycle (tiUpdate : textinput.UpdateFn) (w : sqlx.Backend) (m : model)
    (hs : m.state = stateConfigWizard) (hlen : m.configInputs.length = 5)
    (hf0 : 0 ≤ m.focusedInput) (hf5 : m.focusedInput < 5) :
    (∀ k : tea.KeyMsg, k.String = "tab" ∨ k.String = "down" →
      ∃ r, m.Update tiUpdate w (tea.Msg.KeyMsg k) = some r ∧
        r.m.state = stateConfigWizard ∧ r.m.focusedInput = (m.focusedInput + 1) % 5) ∧
    (∀ k : tea.KeyMsg, k.String = "shift+tab" ∨ k.String = "up" →
      ∃ r, m.Update tiUpdate w (tea.Msg.KeyMsg k) = some r ∧
        r.m.state = stateConfigWizard ∧ r.m.focusedInput = (m.focusedInput - 1 + 5) % 5) ∧
    (∀ ks : List tea.KeyMsg, ks.length = 5 →
      (∀ k ∈ ks, k.String = "tab" ∨ k.String = "down") →
      (∃ m1, runUpdates tiUpdate w m (ks.map tea.Msg.KeyMsg) = some m1 ∧
        m1.state = stateConfigWizard ∧ m1.focusedInput = m.focusedInput) ∧
      (∀ n : Nat, n ≤ 5 →
        ∃ m1, runUpdates tiUpdate w m ((ks.take n).map tea.Msg.KeyMsg) = some m1 ∧
          m1.state = stateConfigWizard ∧ m1.focusedInput = (m.focusedInput + n) % 5) ∧
      (∀ i : Int, 0 ≤ i → i < 5 → ∃ n : Nat, n < 5 ∧
        ∃ m1, runUpdates tiUpdate w m ((ks.take n).map tea.Msg.KeyMsg) = some m1 ∧
          m1.focusedInput = i)) ∧
    (∀ ks : List tea.KeyMsg, ks.length = 5 →
      (∀ k ∈ ks, k.String = "shift+tab" ∨ k.String = "up") →
      (∃ m1, runUpdates tiUpdate w m (ks.map tea.Msg.KeyMsg) = some m1 ∧
        m1.state = stateConfigWizard ∧ m1.focusedInput = m.focusedInput) ∧
      (∀ n : Nat, n ≤ 5 →
        ∃ m1, runUpdates tiUpdate w m ((ks.take n).map tea.Msg.KeyMsg) = some m1 ∧
          m1.state = stateConfigWizard ∧ m1.focusedInput = (m.focusedInput - n) % 5) ∧
      (∀ i : Int, 0 ≤ i → i < 5 → ∃ n : Nat, n < 5 ∧
        ∃ m1, runUpdates tiUpdate w m ((ks.take n).map tea.Msg.KeyMsg) = some m1 ∧
          m1.focusedInput = i)) := by
  refine ⟨?_, ?_, ?_, ?_⟩
  · intro k hk
    refine ⟨_, Update_tab tiUpdate w m k hs hlen hf0 hf5 hk, ?_, ?_⟩
    · simpa [finishUpdate_m] using hs
    · simp [finishUpdate_m]
  · intro k hk
    refine ⟨_, Update_shiftTab tiUpdate w m k hs hlen hf0 hf5 hk, ?_, ?_⟩
    · simpa [finishUpdate_m] using hs
    · simp [finishUpdate_m]
  · intro ks hks hall
    have hpre : ∀ n : Nat, n ≤ 5 →
        ∃ m1, runUpdates tiUpdate w m ((ks.take n).map tea.Msg.KeyMsg) = some m1 ∧
          m1.state = stateConfigWizard ∧ m1.focusedInput = (m.focusedInput + n) % 5 := by
      intro n hn
      obtain ⟨m1, hrun, hs1, _, hf1⟩ := runUpdates_tab tiUpdate w (ks.take n) m hs hlen hf0 hf5
        (fun k hk => hall k (List.mem_of_mem_take hk))
      refine ⟨m1, hrun, hs1, ?_⟩
      rw [hf1, List.length_take, hks, Nat.min_eq_left hn]
    refine ⟨?_, hpre, ?_⟩
    · obtain ⟨m1, hrun, hs1, hf1⟩ := hpre 5 (le_refl 5)
      rw [← hks, List.take_length] at hrun
      refine ⟨m1, hrun, hs1, ?_⟩
      rw [hf1]
      push_cast
      omega
    · intro i hi0 hi5
      refine ⟨((i - m.focusedInput) % 5).toNat, by omega, ?_⟩
      obtain ⟨m1, hrun, _, hf1⟩ := hpre ((i - m.focusedInput) % 5).toNat (by omega)
      refine ⟨m1, hrun, ?_⟩
      rw [hf1]
      omega
  · intro ks hks hall
    have hpre : ∀ n : Nat, n ≤ 5 →
        ∃ m1, runUpdates tiUpdate w m ((ks.take n).map tea.Msg.KeyMsg) = some m1 ∧
          m1.state = stateConfigWizard ∧ m1.focusedInput = (m.focusedInput - n) % 5 := by
      intro n hn
      obtain ⟨m1, hrun, hs1, _, hf1⟩ :=
        runUpdates_shiftTab tiUpdate w (ks.take n) m hs hlen hf0 hf5
          (fun k hk => hall k (List.mem_of_mem_take hk))
      refine ⟨m1, hrun, hs1, ?_⟩
      rw [hf1, List.length_take, hks, Nat.min_eq_left hn]
    refine ⟨?_, hpre, ?_⟩
    · obtain ⟨m1, hrun, hs1, hf1⟩ := hpre 5 (le_refl 5)
      rw [← hks, List.take_length] at hrun
      refine ⟨m1, hrun, hs1, ?_⟩
      rw [hf1]
      push_cast
      omega
    · intro i hi0 hi5
      refine ⟨((m.focusedInput - i) % 5).toNat, by omega, ?_⟩
      obtain ⟨m1, hrun, _, hf1⟩ := hpre ((m.focusedInput - i) % 5).toNat (by omega)
      refine ⟨m1, hrun, ?_⟩
      rw [hf1]
      omega

/-- C1 at the initial model: Tab moves the focus from field 0 to field 1. -/
theorem C1_focus_cycle_witness :
    ∃ r, initialModel.Update textinput.basicUpdate refusingBackend
        (tea.Msg.KeyMsg { Type_ := tea.KeyType.KeyTab, Runes := [], Alt := false }) = some r ∧
      r.m.state = stateConfigWizard ∧ r.m.focusedInput = (initialModel.focusedInput + 1) % 5 :=
  (C1_focus_cycle textinput.basicUpdate refusingBackend initialModel rfl rfl
    (by decide) (by decide)).1 { Type_ := tea.KeyType.KeyTab, Runes := [], Alt := false }
    (Or.inl (by decide))

/-! ## C2: tab cycling on the dashboard -/

/-- One Right on the dashboard. -/
theorem Update_right (tiUpdate : textinput.UpdateFn) (w : sqlx.Backend) (m : model)
    (k : tea.KeyMsg) (hs : m.state = stateConnected)
    (ht0 : 0 ≤ m.selectedTab) (ht4 : m.selectedTab < 4) (hk : k.String = "right") :
    m.Update tiUpdate w (tea.Msg.KeyMsg k) =
      some (finishUpdate tiUpdate { m with selectedTab := (m.selectedTab + 1) % 4 }
        (tea.Msg.KeyMsg k) []) := by
  have hw : wrapInt (m.selectedTab + 1) = m.selectedTab + 1 :=
    wrapInt_of_small _ (by omega) (by omega)
  have hmod : Int.tmod (m.selectedTab + 1) 4 = (m.selectedTab + 1) % 4 := by
    rw [Int.tmod_eq_emod (by omega) (by omega)]
  simp [model.Update, hs, hk, hw, hmod, stateConnected, stateConfigWizard, stateError]

/-- One Left on the dashboard. -/
theorem Update_left (tiUpdate : textinput.UpdateFn) (w : sqlx.Backend) (m : model)
    (k : tea.KeyMsg) (hs : m.state = stateConnected)
    (ht0 : 0 ≤ m.selectedTab) (ht4 : m.selectedTab < 4) (hk : k.String = "left") :
    m.Update tiUpdate w (tea.Msg.KeyMsg k) =
      some (finishUpdate tiUpdate { m with selectedTab := (m.selectedTab - 1 + 4) % 4 }
        (tea.Msg.KeyMsg k) []) := by
  have hw1 : wrapInt (m.selectedTab - 1) = m.selectedTab - 1 :=
    wrapInt_of_small _ (by omega) (by omega)
  have hw : wrapInt (m.selectedTab - 1 + 4) = m.selectedTab - 1 + 4 :=
    wrapInt_of_small _ (by omega) (by omega)
  have hmod : Int.tmod (m.selectedTab - 1 + 4) 4 = (m.selectedTab - 1 + 4) % 4 := by
    rw [Int.tmod_eq_emod (by omega) (by omega)]
  simp [model.Update, hs, hk, hw1, hw, hmod, stateConnected, stateConfigWizard, stateError]

/-- Any number of Right presses on the dashboard. -/
theorem runUpdates_right (tiUpdate : textinput.UpdateFn) (w : sqlx.Backend)
    (ks : List tea.KeyMsg) :
    ∀ m : model, m.state = stateConnected → 0 ≤ m.selectedTab → m.selectedTab < 4 →
      (∀ k ∈ ks, k.String = "right") →
      ∃ m1, runUpdates tiUpdate w m (ks.map tea.Msg.KeyMsg) = some m1 ∧
        m1.state = stateConnected ∧ m1.selectedTab = (m.selectedTab + ks.length) % 4 := by
  induction ks with
  | nil =>
    intro m hs ht0 ht4 _
    refine ⟨m, rfl, hs, ?_⟩
    simp only [List.length_nil, Nat.cast_zero, add_zero]
    omega
  | cons k rest ih =>
    intro m hs ht0 ht4 hks
    have hk := hks k (List.mem_cons_self _ _)
    obtain ⟨m1, hrun, hs1, hf1⟩ :=
      ih (finishUpdate tiUpdate { m with selectedTab := (m.selectedTab + 1) % 4 }
        (tea.Msg.KeyMsg k) []).m
        (by simpa [finishUpdate_m] using hs)
        (by simp only [finishUpdate_m]; omega)
        (by simp only [finishUpdate_m]; omega)
        (fun k1 h1 => hks k1 (List.mem_cons_of_mem _ h1))
    refine ⟨m1, ?_, hs1, ?_⟩
    · simp only [List.map_cons, runUpdates, Update_right tiUpdate w m k hs ht0 ht4 hk]
      exact hrun
    · rw [hf1]
      simp only [finishUpdate_m, List.length_cons, Nat.cast_add, Nat.cast_one]
      omega

/-- C2: on the dashboard (`stateConnected`) with `selectedTab = t` in `[0,4)`, Right sets
`selectedTab` to `(t+1) mod 4` and Left sets it to `(t-1+4) mod 4`; the result is in
`[0,4)`, so never negative, and the screen is still the dashboard; four Right presses
from 0 come back to 0 and one Left press from 0 gives 3. -/
theorem C2_selectedTab_cycle (tiUpdate : textinput.UpdateFn) (w : sqlx.Backend) (m : model)
    (hs : m.state = stateConnected) (ht0 : 0 ≤ m.selectedTab) (ht4 : m.selectedTab < 4) :
    (∀ k : tea.KeyMsg, k.String = "right" →
      ∃ r, m.Update tiUpdate w (tea.Msg.KeyMsg k) = some r ∧ r.m.state = stateConnected ∧
        r.m.selectedTab = (m.selectedTab + 1) % 4 ∧
        0 ≤ r.m.selectedTab ∧ r.m.selectedTab < 4) ∧
    (∀ k : tea.KeyMsg, k.String = "left" →
      ∃ r, m.Update tiUpdate w (tea.Msg.KeyMsg k) = some r ∧ r.m.state = stateConnected ∧
        r.m.selectedTab = (m.selectedTab - 1 + 4) % 4 ∧
        0 ≤ r.m.selectedTab ∧ r.m.selectedTab < 4) ∧
    (m.selectedTab = 0 → ∀ ks : List tea.KeyMsg, ks.length = 4 →
      (∀ k ∈ ks, k.String = "right") →
      ∃ m1, runUpdates tiUpdate w m (ks.map tea.Msg.KeyMsg) = some m1 ∧
        m1.state = stateConnected ∧ m1.selectedTab = 0) ∧
    (m.selectedTab = 0 → ∀ k : tea.KeyMsg, k.String = "left" →
      ∃ r, m.Update tiUpdate w (tea.Msg.KeyMsg k) = some r ∧ r.m.selectedTab = 3) := by
  refine ⟨?_, ?_, ?_, ?_⟩
  · intro k hk
    refine ⟨_, Update_right tiUpdate w m k hs ht0 ht4 hk, ?_, ?_, ?_, ?_⟩
    · simpa [finishUpdate_m] using hs
    · simp [finishUpdate_m]
    · simp only [finishUpdate_m]; omega
    · simp only [finishUpdate_m]; omega
  · intro k hk
    refine ⟨_, Update_left tiUpdate w m k hs ht0 ht4 hk, ?_, ?_, ?_, ?_⟩
    · simpa [finishUpdate_m] using hs
    · simp [finishUpdate_m]
    · simp only [finishUpdate_m]; omega
    · simp only [finishUpdate_m]; omega
  · intro h0 ks hks hall
    obtain ⟨m1, hrun, hs1, hf1⟩ := runUpdates_right tiUpdate w ks m hs ht0 ht4 hall
    refine ⟨m1, hrun, hs1, ?_⟩
    rw [hf1, hks, h0]
    rfl
  · intro h0 k hk
    refine ⟨_, Update_left tiUpdate w m k hs ht0 ht4 hk, ?_⟩
    simp only [finishUpdate_m, h0]
    rfl

/-- C2 at a dashboard state with `selectedTab = 0`: one Left gives 3. -/
theorem C2_selectedTab_cycle_witness :
    ∃ r, dashboardModel.Update textinput.basicUpdate refusingBackend
        (tea.Msg.KeyMsg keyLeft) = some r ∧ r.m.selectedTab = 3 :=
  (C2_selectedTab_cycle textinput.basicUpdate refusingBackend dashboardModel rfl
    (by decide) (by decide)).2.2.2 rfl keyLeft (by decide)

/-! ## Facts on the basic text field and on the loop over the fields -/

theorem basicUpdate_keepsFocus : textinput.KeepsFocus textinput.basicUpdate := by
  intro t msg
  unfold textinput.basicUpdate
  split
  · rfl
  · split
    · split
      · rfl
      · split <;> (try split) <;> rfl
    · rfl

theorem basicUpdate_cmd (t : textinput.Model) (msg : tea.Msg) :
    (textinput.basicUpdate t msg).2 = none := by
  unfold textinput.basicUpdate
  split
  · rfl
  · split
    · split
      · rfl
      · split <;> (try split) <;> rfl
    · rfl

theorem basicUpdate_neverQuits : textinput.NeverQuits textinput.basicUpdate := by
  intro t msg
  simp [basicUpdate_cmd]

theorem basicUpdate_ignoresResize : textinput.IgnoresResize textinput.basicUpdate := by
  intro t w h
  unfold textinput.basicUpdate
  split <;> rfl

theorem basicUpdate_idleWithoutFocus : textinput.IdleWithoutFocus textinput.basicUpdate := by
  intro t msg h
  simp [textinput.basicUpdate, h]

theorem basicUpdate_keepsValueOn_enter :
    textinput.KeepsValueOn textinput.basicUpdate (tea.Msg.KeyMsg keyEnter) := by
  intro t
  unfold textinput.basicUpdate
  split
  · rfl
  · rfl

theorem updateInputs_map_focus (tiUpdate : textinput.UpdateFn)
    (hfocus : textinput.KeepsFocus tiUpdate) (msg : tea.Msg) (l : List textinput.Model) :
    (updateInputs tiUpdate msg l).1.map (fun t => t.focus) = l.map (fun t => t.focus) := by
  induction l with
  | nil => rfl
  | cons t rest ih =>
    have h := hfocus t msg
    unfold updateInputs
    split
    · rename_i t1 cmd heq
      rw [heq] at h
      simp [← h]
    · rename_i t1 heq
      rw [heq] at h
      simp [← h, ih]

theorem updateInputs_map_Value (tiUpdate : textinput.UpdateFn) (msg : tea.Msg)
    (hvalue : textinput.KeepsValueOn tiUpdate msg) (l : List textinput.Model) :
    (updateInputs tiUpdate msg l).1.map (fun t => t.Value) = l.map (fun t => t.Value) := by
  induction l with
  | nil => rfl
  | cons t rest ih =>
    have h := hvalue t
    unfold updateInputs
    split
    · rename_i t1 cmd heq
      rw [heq] at h
      simp [← h]
    · rename_i t1 heq
      rw [heq] at h
      simp [← h, ih]

theorem updateInputs_resize (tiUpdate : textinput.UpdateFn)
    (hresize : textinput.IgnoresResize tiUpdate) (width height : Int)
    (l : List textinput.Model) :
    (updateInputs tiUpdate (tea.Msg.WindowSizeMsg width height) l).1 = l := by
  induction l with
  | nil => rfl
  | cons t rest ih =>
    have h := hresize t width height
    unfold updateInputs
    split
    · rename_i t1 cmd heq
      rw [heq] at h
      simp [← h]
    · rename_i t1 heq
      rw [heq] at h
      simp [← h, ih]

theorem updateInputs_neverQuits (tiUpdate : textinput.UpdateFn)
    (hquit : textinput.NeverQuits tiUpdate) (msg : tea.Msg) (l : List textinput.Model) :
    (updateInputs tiUpdate msg l).2 ≠ some tea.Cmd.Quit := by
  induction l with
  | nil => simp [updateInputs]
  | cons t rest ih =>
    have h := hquit t msg
    unfold updateInputs
    split
    · rename_i t1 cmd heq
      rw [heq] at h
      exact h
    · exact ih

theorem updateInputs_idle (tiUpdate : textinput.UpdateFn)
    (hidle : textinput.IdleWithoutFocus tiUpdate) (msg : tea.Msg) :
    ∀ (l : List textinput.Model) (i : Nat) (t : textinput.Model),
      l[i]? = some t → t.focus = false → (updateInputs tiUpdate msg l).1[i]? = some t := by
  intro l
  induction l with
  | nil => intro i t h; simp at h
  | cons t0 rest ih =>
    intro i t h hf
    unfold updateInputs
    cases i with
    | zero =>
      simp only [List.getElem?_cons_zero, Option.some.injEq] at h
      subst h
      rw [hidle t0 msg hf]
      simp
    | succ j =>
      simp only [List.getElem?_cons_succ] at h
      split
      · simpa using h
      · simpa using ih j t h hf

/-! ## C3: Enter on the error screen -/

/-- C3 as stated fails: Enter on an error screen showing a message leads back to the
input form with that message still stored in `errorMessage`, not cleared. -/
theorem C3_error_not_cleared :
    ∃ r, errorModel.Update textinput.basicUpdate refusingBackend
        (tea.Msg.KeyMsg keyEnter) = some r ∧
      r.m.state = stateConfigWizard ∧
      r.m.errorMessage = "failed to connect to the database: connection refused" ∧
      r.m.errorMessage ≠ "" :=
  ⟨_, rfl, rfl, rfl, by decide⟩

/-- C3, amended: on the error screen (`stateError`) Enter yields a state whose screen is
the input form (`stateConfigWizard`), whose `errorMessage` is what it was before (it is
not cleared), whose field values are identical to those before the key press (the text
fields keeping their text on this key), and which is otherwise unchanged; no connection
attempt is made. -/
theorem C3_enter_on_error (tiUpdate : textinput.UpdateFn) (w : sqlx.Backend) (m : model)
    (k : tea.KeyMsg) (hs : m.state = stateError) (hk : k.String = "enter")
    (hvalue : textinput.KeepsValueOn tiUpdate (tea.Msg.KeyMsg k)) :
    ∃ r, m.Update tiUpdate w (tea.Msg.KeyMsg k) = some r ∧
      r.m.state = stateConfigWizard ∧
      r.m.errorMessage = m.errorMessage ∧
      r.m.configInputs.map (fun t => t.Value) = m.configInputs.map (fun t => t.Value) ∧
      r.m.configInputs.length = m.configInputs.length ∧
      r.m.focusedInput = m.focusedInput ∧ r.m.selectedTab = m.selectedTab ∧
      r.m.width = m.width ∧ r.m.height = m.height ∧ r.m.db = m.db ∧
      r.m.tables = m.tables ∧ r.m.tableRowCount = m.tableRowCount ∧
      r.effects = [] := by
  refine ⟨finishUpdate tiUpdate { m with state := stateConfigWizard } (tea.Msg.KeyMsg k) [],
    ?_, rfl, rfl, ?_, ?_, rfl, rfl, rfl, rfl, rfl, rfl, rfl, rfl⟩
  · simp [model.Update, hs, hk, stateError, stateConfigWizard]
  · exact updateInputs_map_Value tiUpdate _ hvalue m.configInputs
  · exact updateInputs_length tiUpdate _ m.configInputs

/-- C3, amended, at an error screen state reached with the text `connection refused`. -/
theorem C3_enter_on_error_witness :
    ∃ r, errorModel.Update textinput.basicUpdate refusingBackend
        (tea.Msg.KeyMsg keyEnter) = some r ∧
      r.m.state = stateConfigWizard ∧
      r.m.errorMessage = errorModel.errorMessage ∧
      r.m.configInputs.map (fun t => t.Value) =
        errorModel.configInputs.map (fun t => t.Value) ∧
      r.m.configInputs.length = errorModel.configInputs.length ∧
      r.m.focusedInput = errorModel.focusedInput ∧ r.m.selectedTab = errorModel.selectedTab ∧
      r.m.width = errorModel.width ∧ r.m.height = errorModel.height ∧
      r.m.db = errorModel.db ∧
      r.m.tables = errorModel.tables ∧ r.m.tableRowCount = errorModel.tableRowCount ∧
      r.effects = [] :=
  C3_enter_on_error textinput.basicUpdate refusingBackend errorModel keyEnter rfl
    (by decide) basicUpdate_keepsValueOn_enter

/-! ## C4: keys while connecting -/

/-- C4 as stated fails: while connecting (`stateQuerying`) a typed letter is passed on to
the focused text field and changes its value, and Ctrl+C is passed on like any other key
and does not return `tea.Quit`. -/
theorem C4_keys_not_ignored :
    (∃ r, queryingModel.Update textinput.basicUpdate refusingBackend
        (tea.Msg.KeyMsg keyA) = some r ∧
      queryingModel.configInputs.map (fun t => t.Value) = ["", "", "", "", ""] ∧
      r.m.configInputs.map (fun t => t.Value) = ["a", "", "", "", ""]) ∧
    (∃ r, queryingModel.Update textinput.basicUpdate refusingBackend
        (tea.Msg.KeyMsg keyCtrlC) = some r ∧ r.cmd ≠ some tea.Cmd.Quit ∧
      r.m.state = stateQuerying) :=
  ⟨⟨_, rfl, by decide, by decide⟩, ⟨_, rfl, by decide, rfl⟩⟩

/-- C4, amended: while connecting (`stateQuerying`), for every key other than Ctrl+C,
`Update` returns a state with the same screen, focus index, selected tab, window size,
error text, database handle, tables and row counts, and makes no connection attempt; the
key is passed on to the text fields: a field without focus keeps its content (for text
fields idle without focus), the focused one is updated by the text field itself, and
the returned command is the one of the text fields, which is no termination request
(for text fields that never ask to quit). -/
theorem C4_keys_while_querying (tiUpdate : textinput.UpdateFn) (w : sqlx.Backend)
    (m : model) (k : tea.KeyMsg) (hs : m.state = stateQuerying)
    (_hk : k.String ≠ "ctrl+c") :
    ∃ r, m.Update tiUpdate w (tea.Msg.KeyMsg k) = some r ∧
      r.m.state = stateQuerying ∧
      r.m.focusedInput = m.focusedInput ∧ r.m.selectedTab = m.selectedTab ∧
      r.m.width = m.width ∧ r.m.height = m.height ∧
      r.m.errorMessage = m.errorMessage ∧ r.m.db = m.db ∧
      r.m.tables = m.tables ∧ r.m.tableRowCount = m.tableRowCount ∧
      r.effects = [] ∧
      r.m.configInputs = (updateInputs tiUpdate (tea.Msg.KeyMsg k) m.configInputs).1 ∧
      r.cmd = (updateInputs tiUpdate (tea.Msg.KeyMsg k) m.configInputs).2 ∧
      r.m.configInputs.length = m.configInputs.length ∧
      (textinput.IdleWithoutFocus tiUpdate →
        ∀ (i : Nat) (t : textinput.Model), m.configInputs[i]? = some t → t.focus = false →
          r.m.configInputs[i]? = some t) ∧
      (textinput.NeverQuits tiUpdate → r.cmd ≠ some tea.Cmd.Quit) := by
  refine ⟨finishUpdate tiUpdate m (tea.Msg.KeyMsg k) [], ?_, hs, rfl, rfl, rfl, rfl, rfl,
    rfl, rfl, rfl, rfl, rfl, rfl, ?_, ?_, ?_⟩
  · simp [model.Update, hs, stateQuerying, stateError, stateConfigWizard, stateConnected]
  · exact updateInputs_length tiUpdate _ m.configInputs
  · intro hidle i t hi hf
    exact updateInputs_idle tiUpdate hidle _ m.configInputs i t hi hf
  · intro hquit
    exact updateInputs_neverQuits tiUpdate hquit _ m.configInputs

/-- C4, amended, at the connecting state and the typed letter `a`: the screen stays
`stateQuerying` and nothing is started. -/
theorem C4_keys_while_querying_witness :
    ∃ r, queryingModel.Update textinput.basicUpdate refusingBackend
        (tea.Msg.KeyMsg keyA) = some r ∧
      r.m.state = stateQuerying ∧ r.effects = [] ∧ r.cmd ≠ some tea.Cmd.Quit := by
  obtain ⟨r, h, hs, _, _, _, _, _, _, _, _, he, _, _, _, _, hq⟩ :=
    C4_keys_while_querying textinput.basicUpdate refusingBackend queryingModel keyA rfl
      (by decide)
  exact ⟨r, h, hs, he, hq basicUpdate_neverQuits⟩

/-! ## C5: Enter on the input form -/

/-- C5 as stated fails: the connection is attempted inside the Enter transition and its
outcome decides the returned state.  From the initial form, Enter leads to the error
screen when the connection fails, with no fetch started, and to `stateQuerying` when it
succeeds. -/
theorem C5_enter_depends_on_connection :
    (∃ r, initialModel.Update textinput.basicUpdate refusingBackend
        (tea.Msg.KeyMsg keyEnter) = some r ∧
      r.m.state = stateError ∧ r.m.state ≠ stateQuerying ∧
      r.m.errorMessage = "failed to connect to the database: connection refused" ∧
      r.effects.length = 1) ∧
    (∃ r, initialModel.Update textinput.basicUpdate usersOrdersBackend
        (tea.Msg.KeyMsg keyEnter) = some r ∧
      r.m.state = stateQuerying ∧ r.effects.length = 2) :=
  ⟨⟨_, rfl, rfl, by decide, rfl, rfl⟩, ⟨_, rfl, rfl, rfl⟩⟩

/-- C5, amended: on the input form (`stateConfigWizard`) with five fields of any content,
empty ones included, Enter makes exactly one connection attempt (`connectToDatabase`)
whose parameters are the five field values, unmodified and unvalidated (field 0 = user,
1 = password, 2 = host, 3 = port, 4 = database name).  If the attempt succeeds, the
screen moves to connecting (`stateQuerying`), the handle is stored and exactly one
`fetchTableData` is started on that state; if it fails, the screen moves to the error
screen (`stateError`) with the failure text as `errorMessage` and nothing is started. -/
theorem C5_enter_on_form (tiUpdate : textinput.UpdateFn) (w : sqlx.Backend) (m : model)
    (k : tea.KeyMsg) (i0 i1 i2 i3 i4 : textinput.Model)
    (hs : m.state = stateConfigWizard) (hinputs : m.configInputs = [i0, i1, i2, i3, i4])
    (hk : k.String = "enter") :
    (∀ db, connectToDatabase w
        { User := i0.Value, Password := i1.Value, Host := i2.Value, Port := i3.Value,
          DBName := i4.Value } = Except.ok db →
      ∃ r, m.Update tiUpdate w (tea.Msg.KeyMsg k) = some r ∧
        r.m.state = stateQuerying ∧ r.m.db = some db ∧
        r.m.errorMessage = m.errorMessage ∧
        r.m.focusedInput = m.focusedInput ∧
        r.m.tables = m.tables ∧ r.m.tableRowCount = m.tableRowCount ∧
        r.effects =
          [Effect.connectToDatabase
             { User := i0.Value, Password := i1.Value, Host := i2.Value, Port := i3.Value,
               DBName := i4.Value },
           Effect.goFetchTableData { m with db := some db, state := stateQuerying }]) ∧
    (∀ err, connectToDatabase w
        { User := i0.Value, Password := i1.Value, Host := i2.Value, Port := i3.Value,
          DBName := i4.Value } = Except.error err →
      ∃ r, m.Update tiUpdate w (tea.Msg.KeyMsg k) = some r ∧
        r.m.state = stateError ∧ r.m.errorMessage = err ∧ r.m.db = m.db ∧
        r.m.focusedInput = m.focusedInput ∧
        r.m.tables = m.tables ∧ r.m.tableRowCount = m.tableRowCount ∧
        r.effects =
          [Effect.connectToDatabase
             { User := i0.Value, Password := i1.Value, Host := i2.Value, Port := i3.Value,
               DBName := i4.Value }]) := by
  constructor
  · intro db hdb
    refine ⟨finishUpdate tiUpdate { m with db := some db, state := stateQuerying }
      (tea.Msg.KeyMsg k)
      [Effect.connectToDatabase
         { User := i0.Value, Password := i1.Value, Host := i2.Value, Port := i3.Value,
           DBName := i4.Value },
       Effect.goFetchTableData { m with db := some db, state := stateQuerying }],
      ?_, rfl, rfl, rfl, rfl, rfl, rfl, rfl⟩
    simp [model.Update, hs, hk, hinputs, hdb]
  · intro err herr
    refine ⟨finishUpdate tiUpdate { m with errorMessage := err, state := stateError }
      (tea.Msg.KeyMsg k)
      [Effect.connectToDatabase
         { User := i0.Value, Password := i1.Value, Host := i2.Value, Port := i3.Value,
           DBName := i4.Value }],
      ?_, rfl, rfl, rfl, rfl, rfl, rfl, rfl⟩
    simp [model.Update, hs, hk, hinputs, herr]

/-- C5, amended, at the initial form with all five fields empty and a backend that
refuses the connection: the error screen with the failure text. -/
theorem C5_enter_on_form_witness :
    ∃ r, initialModel.Update textinput.basicUpdate refusingBackend
        (tea.Msg.KeyMsg keyEnter) = some r ∧
      r.m.state = stateError ∧
      r.m.errorMessage = "failed to connect to the database: connection refused" ∧
      r.effects =
        [Effect.connectToDatabase
           { User := "", Password := "", Host := "", Port := "", DBName := "" }] := by
  obtain ⟨r, h, hst, hmsg, _, _, _, _, heff⟩ :=
    (C5_enter_on_form textinput.basicUpdate refusingBackend initialModel keyEnter
      _ _ _ _ _ rfl rfl (by decide)).2
      "failed to connect to the database: connection refused" rfl
  exact ⟨r, h, hst, hmsg, heff⟩

/-! ## The loop of `fetchTableData` -/

/-- When the row counts of the tables `pre` succeed and the one of the next table `t`
fails, the loop ends on the error screen, with the counts of `pre` already written. -/
theorem fetchRowCounts_fail (w : sqlx.Backend) (db : DB) (c : String → Int)
    (t : String) (err : String) (post : List String)
    (ht : fetchRowCount w db t = Except.error err) (pre : List String) :
    ∀ (m : model) (rc : String → Option Int), m.tableRowCount = some rc →
      (∀ p ∈ pre, fetchRowCount w db p = Except.ok (c p)) →
      ∃ rc1, fetchRowCounts w db (pre ++ t :: post) m =
          some { m with
            errorMessage := "Failed to fetch row count for table " ++ t ++ ": " ++ err,
            state := stateError, tableRowCount := some rc1 } ∧
        ∀ k, rc1 k = if k ∈ pre then some (c k) else rc k := by
  induction pre with
  | nil =>
    intro m rc hrc _
    refine ⟨rc, ?_, by simp⟩
    simp [fetchRowCounts, ht, ← hrc]
  | cons p rest ih =>
    intro m rc hrc hall
    have hp := hall p (List.mem_cons_self _ _)
    obtain ⟨rc1, hrun, hrc1⟩ :=
      ih { m with tableRowCount := some (fun k => if k = p then some (c p) else rc k) }
        (fun k => if k = p then some (c p) else rc k) rfl
        (fun t1 h1 => hall t1 (List.mem_cons_of_mem _ h1))
    refine ⟨rc1, ?_, ?_⟩
    · simp only [List.cons_append, fetchRowCounts, hp, hrc]
      exact hrun
    · intro k
      rw [hrc1 k]
      by_cases hk : k = p
      · subst hk
        simp
      · simp [hk]

/-- The loop never reads the screen it starts on. -/
theorem fetchRowCounts_state (w : sqlx.Backend) (db : DB) (s : Int) (T : List String) :
    ∀ m : model, fetchRowCounts w db T { m with state := s } = fetchRowCounts w db T m := by
  induction T with
  | nil => intro m; rfl
  | cons t rest ih =>
    intro m
    cases hfr : fetchRowCount w db t with
    | error err => simp [fetchRowCounts, hfr]
    | ok rowCount =>
      cases hrc : m.tableRowCount with
      | none => simp [fetchRowCounts, hfr, hrc]
      | some rc =>
        simp only [fetchRowCounts, hfr, hrc]
        exact ih { m with
          tableRowCount := some (fun k => if k = t then some rowCount else rc k) }

/-- A text with a non-empty beginning is not empty. -/
theorem append_ne_empty (a b : String) (ha : a ≠ "") : a ++ b ≠ "" := by
  intro h
  apply ha
  have h1 := congrArg String.data h
  rw [String.data_append] at h1
  have h2 : a.data = [] := (List.append_eq_nil.mp h1).1
  exact String.ext h2

/-! ## The database handle and the map in the reachable states -/

/-- C7 as stated fails: when the listing succeeds and the second row count fails, the
state on the error screen holds the full table list and the first row count, which it
did not hold before. -/
theorem C7_partial_result_stored :
    ∃ m1 rc1, queryingModel.fetchTableData ordersDeniedBackend = some m1 ∧
      m1.state = stateError ∧
      queryingModel.tables = [] ∧ m1.tables = ["users", "orders"] ∧
      queryingModel.tableRowCount = some (fun _ => none) ∧
      m1.tableRowCount = some rc1 ∧ rc1 "users" = some 3 := by
  refine ⟨_, _, rfl, rfl, rfl, rfl, rfl, rfl, ?_⟩
  decide

/-- C7, amended: for every state (with a database handle and a row count map), a failing
probe ends on the error screen (`stateError`) with a non-empty `errorMessage` carrying the
failure reason.  If the table listing fails, `tables` and the row counts are exactly what
they were before.  If the listing succeeds and the row count of a table fails, `tables`
is the full listing and the row counts of the tables before the first failing one have
been written into the map, all other entries being what they were before. -/
theorem C7_probe_failure (w : sqlx.Backend) (m : model) (db : DB)
    (rc : String → Option Int) (hdb : m.db = some db) (hrc : m.tableRowCount = some rc) :
    (∀ err, fetchTables w db = Except.error err →
      ∃ m1, m.fetchTableData w = some m1 ∧ m1.state = stateError ∧
        m1.errorMessage = "Failed to load tables: " ++ err ∧ m1.errorMessage ≠ "" ∧
        m1.tables = m.tables ∧ m1.tableRowCount = m.tableRowCount) ∧
    (∀ (pre : List String) (t : String) (post : List String) (err : String)
        (c : String → Int),
      fetchTables w db = Except.ok (pre ++ t :: post) →
      (∀ p ∈ pre, fetchRowCount w db p = Except.ok (c p)) →
      fetchRowCount w db t = Except.error err →
      ∃ m1 rc1, m.fetchTableData w = some m1 ∧ m1.state = stateError ∧
        m1.errorMessage = "Failed to fetch row count for table " ++ t ++ ": " ++ err ∧
        m1.errorMessage ≠ "" ∧
        m1.tables = pre ++ t :: post ∧ m1.tableRowCount = some rc1 ∧
        ∀ k, rc1 k = if k ∈ pre then some (c k) else rc k) := by
  obtain ⟨st, inputs, fi, content, msg, wd, hgt, tab, mdb, tables, counts⟩ := m
  simp only at hdb hrc
  subst hdb hrc
  constructor
  · intro err herr
    refine ⟨{ state := stateError, configInputs := inputs, focusedInput := fi,
              content := content, errorMessage := "Failed to load tables: " ++ err,
              width := wd, height := hgt, selectedTab := tab, db := some db,
              tables := tables, tableRowCount := some rc },
      ?_, rfl, rfl, ?_, rfl, rfl⟩
    · simp [model.fetchTableData, herr]
    · exact append_ne_empty _ _ (by decide)
  · intro pre t post err c hT hpre ht
    obtain ⟨rc1, hrun, hrc1⟩ :=
      fetchRowCounts_fail w db c t err post ht pre
        { state := st, configInputs := inputs, focusedInput := fi, content := content,
          errorMessage := msg, width := wd, height := hgt, selectedTab := tab,
          db := some db, tables := pre ++ t :: post, tableRowCount := some rc } rc rfl hpre
    refine ⟨{ state := stateError, configInputs := inputs, focusedInput := fi,
              content := content,
              errorMessage := "Failed to fetch row count for table " ++ t ++ ": " ++ err,
              width := wd, height := hgt, selectedTab := tab, db := some db,
              tables := pre ++ t :: post, tableRowCount := some rc1 },
      rc1, ?_, rfl, rfl, ?_, rfl, rfl, hrc1⟩
    · simp only [model.fetchTableData, hT]
      exact hrun
    · simp only [String.append_assoc]
      exact append_ne_empty _ _ (by decide)

/-- C7, amended, at a backend on which the listing fails: the error screen, with the
reason in the message and the tables as before. -/
theorem C7_probe_failure_witness :
    ∃ m1, queryingModel.fetchTableData listingDeniedBackend = some m1 ∧
      m1.state = stateError ∧
      m1.errorMessage =
        "Failed to load tables: " ++ "failed to fetch tables: permission denied" ∧
      m1.errorMessage ≠ "" ∧
      m1.tables = queryingModel.tables ∧ m1.tableRowCount = queryingModel.tableRowCount :=
  (C7_probe_failure listingDeniedBackend queryingModel { handle := 1 } (fun _ => none)
    rfl rfl).1 "failed to fetch tables: permission denied" rfl

/-! ## `fetchTableData` and the screen -/

/-- The method `fetchTableData` never reads the screen it starts on. -/
theorem fetchTableData_state (w : sqlx.Backend) (m : model) (s : Int) :
    model.fetchTableData w { m with state := s } = m.fetchTableData w := by
  obtain ⟨st, inputs, fi, content, msg, wd, ht, tab, mdb, tables, counts⟩ := m
  cases mdb with
  | none => rfl
  | some db =>
    cases hT : fetchTables w db with
    | error err => simp [model.fetchTableData, hT]
    | ok T =>
      simp only [model.fetchTableData, hT]
      exact fetchRowCounts_state w db s T
        { state := st, configInputs := inputs, focusedInput := fi, content := content,
          errorMessage := msg, width := wd, height := ht, selectedTab := tab,
          db := some db, tables := T, tableRowCount := counts }

/-! ## C9: window size messages -/

/-- C9: on any screen, `Update` on a window size message `(w, h)` yields a state with
`width = w` and `height = h` whose screen, tables, row counts, error text, selected tab,
focus index and fields (so their values) are unchanged, returns no termination request
and makes no connection attempt; a second, identical message leaves that state as it
is.  The text fields are taken to ignore a window size message and never to ask to quit. -/
theorem C9_resize (tiUpdate : textinput.UpdateFn) (w : sqlx.Backend) (m : model)
    (width height : Int) (hresize : textinput.IgnoresResize tiUpdate)
    (hquit : textinput.NeverQuits tiUpdate) :
    ∃ r, m.Update tiUpdate w (tea.Msg.WindowSizeMsg width height) = some r ∧
      r.m = { m with width := width, height := height } ∧
      r.m.width = width ∧ r.m.height = height ∧
      r.m.state = m.state ∧ r.m.tables = m.tables ∧
      r.m.tableRowCount = m.tableRowCount ∧ r.m.errorMessage = m.errorMessage ∧
      r.m.selectedTab = m.selectedTab ∧ r.m.focusedInput = m.focusedInput ∧
      r.m.configInputs = m.configInputs ∧
      r.m.configInputs.map (fun t => t.Value) = m.configInputs.map (fun t => t.Value) ∧
      r.cmd ≠ some tea.Cmd.Quit ∧ r.effects = [] ∧
      ∃ r2, r.m.Update tiUpdate w (tea.Msg.WindowSizeMsg width height) = some r2 ∧
        r2.m = r.m ∧ r2.cmd ≠ some tea.Cmd.Quit := by
  have hm : ∀ m0 : model,
      (finishUpdate tiUpdate m0 (tea.Msg.WindowSizeMsg width height) []).m = m0 := by
    intro m0
    simp only [finishUpdate_m, updateInputs_resize tiUpdate hresize]
  have hr : (finishUpdate tiUpdate { m with width := width, height := height }
      (tea.Msg.WindowSizeMsg width height) []).m =
      { m with width := width, height := height } := hm _
  refine ⟨finishUpdate tiUpdate { m with width := width, height := height }
    (tea.Msg.WindowSizeMsg width height) [], rfl, hr, ?_, ?_, ?_, ?_, ?_, ?_, ?_, ?_, ?_,
    ?_, ?_, rfl, ?_⟩
  any_goals (rw [hr])
  · exact updateInputs_neverQuits tiUpdate hquit _ _
  · refine ⟨finishUpdate tiUpdate { m with width := width, height := height }
      (tea.Msg.WindowSizeMsg width height) [], rfl, ?_, ?_⟩
    · exact hm _
    · exact updateInputs_neverQuits tiUpdate hquit _ _

/-- C9 at the initial model and the window size 80 by 24. -/
theorem C9_resize_witness :
    ∃ r, initialModel.Update textinput.basicUpdate refusingBackend
        (tea.Msg.WindowSizeMsg 80 24) = some r ∧
      r.m.width = 80 ∧ r.m.height = 24 ∧ r.m.state = initialModel.state ∧
      r.m.configInputs = initialModel.configInputs ∧ r.cmd ≠ some tea.Cmd.Quit := by
  obtain ⟨r, h, _, hw, hh, hst, _, _, _, _, _, hin, _, hq, _, _⟩ :=
    C9_resize textinput.basicUpdate refusingBackend initialModel 80 24
      basicUpdate_ignoresResize basicUpdate_neverQuits
  exact ⟨r, h, hw, hh, hst, hin, hq⟩

/-! ## C10: the focus invariant -/

/-- The three shapes of a result of `Update`: the model as it was (a quit), the loop over
the fields run on a model with the same fields and focus index, or a focus key. -/
theorem Update_shape (tiUpdate : textinput.UpdateFn) (w : sqlx.Backend) (m : model)
    (msg : tea.Msg) (r : UpdateResult) (h : m.Update tiUpdate w msg = some r) :
    r.m = m ∨
    (∃ m0 eff, r = finishUpdate tiUpdate m0 msg eff ∧
      m0.configInputs = m.configInputs ∧ m0.focusedInput = m.focusedInput) ∨
    (∃ f, (goMod (wrapInt (m.focusedInput + 1)) m.configInputs.length = some f ∨
        goMod (wrapInt (wrapInt (m.focusedInput - 1) + m.configInputs.length))
          m.configInputs.length = some f) ∧
      r = finishUpdate tiUpdate
        { m with focusedInput := f, configInputs := focusLoop f 0 m.configInputs } msg []) := by
  unfold model.Update at h
  split at h
  · split_ifs at h
    all_goals first
      | (injection h with h; subst h; exact Or.inl rfl)
      | (injection h with h; subst h; exact Or.inr (Or.inl ⟨_, _, rfl, rfl, rfl⟩))
      | skip
    · split at h
      · cases h
      · injection h with h; subst h
        rename_i f hf
        exact Or.inr (Or.inr ⟨f, Or.inl hf, rfl⟩)
    · split at h
      · cases h
      · injection h with h; subst h
        rename_i f hf
        exact Or.inr (Or.inr ⟨f, Or.inr hf, rfl⟩)
    · split at h
      · dsimp only at h
        split at h
        all_goals (injection h with h; subst h; exact Or.inr (Or.inl ⟨_, _, rfl, rfl, rfl⟩))
      · cases h
  · injection h with h; subst h; exact Or.inr (Or.inl ⟨_, _, rfl, rfl, rfl⟩)
  · injection h with h; subst h; exact Or.inr (Or.inl ⟨_, _, rfl, rfl, rfl⟩)

/-- The focus flags the loop of a focus key leaves behind. -/
theorem focusLoop_map_focus (f : Int) (l : List textinput.Model) :
    ∀ i : Nat, (focusLoop f i l).map (fun t => t.focus) =
      (List.range' i l.length).map (fun j : Nat => decide ((j : Int) = f)) := by
  induction l with
  | nil => intro i; rfl
  | cons t rest ih =>
    intro i
    simp only [focusLoop, List.map_cons, List.length_cons, List.range'_succ, ih (i + 1)]
    congr 1
    by_cases h : (i : Int) = f <;> simp [h, textinput.Model.Focus, textinput.Model.Blur]

/-- One `Update` keeps the focus index in range and the focus flags in step with it. -/
theorem Update_focus_flags (tiUpdate : textinput.UpdateFn)
    (hfocus : textinput.KeepsFocus tiUpdate) (w : sqlx.Backend) (m : model) (msg : tea.Msg)
    (r : UpdateResult) (h : m.Update tiUpdate w msg = some r)
    (h0 : 0 ≤ m.focusedInput) (h5 : m.focusedInput < 5)
    (hflags : m.configInputs.map (fun t => t.focus) =
      (List.range' 0 5).map (fun j : Nat => decide ((j : Int) = m.focusedInput))) :
    0 ≤ r.m.focusedInput ∧ r.m.focusedInput < 5 ∧
      r.m.configInputs.map (fun t => t.focus) =
        (List.range' 0 5).map (fun j : Nat => decide ((j : Int) = r.m.focusedInput)) := by
  have hlen : m.configInputs.length = 5 := by
    have := congrArg List.length hflags
    simpa using this
  rcases Update_shape tiUpdate w m msg r h with hsame | ⟨m0, eff, hr, hin, hf⟩ | ⟨f, hf, hr⟩
  · rw [hsame]
    exact ⟨h0, h5, hflags⟩
  · subst hr
    simp only [finishUpdate_m, updateInputs_map_focus tiUpdate hfocus, hin, hf]
    exact ⟨h0, h5, hflags⟩
  · subst hr
    have hw1 : wrapInt (m.focusedInput + 1) = m.focusedInput + 1 :=
      wrapInt_of_small _ (by omega) (by omega)
    have hw2 : wrapInt (m.focusedInput - 1) = m.focusedInput - 1 :=
      wrapInt_of_small _ (by omega) (by omega)
    have hw3 : wrapInt (m.focusedInput - 1 + 5) = m.focusedInput - 1 + 5 :=
      wrapInt_of_small _ (by omega) (by omega)
    have hm1 : Int.tmod (m.focusedInput + 1) 5 = (m.focusedInput + 1) % 5 := by
      rw [Int.tmod_eq_emod (by omega) (by omega)]
    have hm2 : Int.tmod (m.focusedInput - 1 + 5) 5 = (m.focusedInput - 1 + 5) % 5 := by
      rw [Int.tmod_eq_emod (by omega) (by omega)]
    have hrange : 0 ≤ f ∧ f < 5 := by
      rcases hf with hf | hf
      · simp [goMod, hlen, hw1, hm1] at hf
        omega
      · simp [goMod, hlen, hw2, hw3, hm2] at hf
        omega
    refine ⟨hrange.1, hrange.2, ?_⟩
    simp only [finishUpdate_m, updateInputs_map_focus tiUpdate hfocus, focusLoop_map_focus,
      hlen]

/-- With five fields `Update` returns on every message: no index is out of range and no
divisor is zero. -/
theorem Update_total (tiUpdate : textinput.UpdateFn) (w : sqlx.Backend) (m : model)
    (msg : tea.Msg) (hlen : m.configInputs.length = 5) :
    ∃ r, m.Update tiUpdate w msg = some r := by
  rcases hm : m.configInputs with _ | ⟨a, _ | ⟨b, _ | ⟨c, _ | ⟨d, _ | ⟨e, _ | ⟨g, rest⟩⟩⟩⟩⟩⟩
  all_goals try (simp [hm] at hlen)
  cases msg with
  | KeyMsg k =>
    unfold model.Update
    simp only [hm]
    split_ifs
    all_goals first
      | exact ⟨_, rfl⟩
      | skip
    · cases hc : connectToDatabase w
        { User := a.Value, Password := b.Value, Host := c.Value, Port := d.Value,
          DBName := e.Value } with
      | error err => simp [hc]
      | ok db => simp [hc]
  | WindowSizeMsg width height => exact ⟨_, rfl⟩
  | other tag => exact ⟨_, rfl⟩

/-- C10: in every state reachable from `initialModel` by key and window size messages
through `Update` (the text fields never changing their own focus flag), there are five
fields, `focusedInput` is in `[0,5)` and field `i` is focused if and only if
`i = focusedInput`: exactly one field is focused, `configInputs[focusedInput]`.  In such
a state `Update` returns on every message, so every sequence of events can be applied. -/
theorem C10_focus_invariant (tiUpdate : textinput.UpdateFn)
    (hfocus : textinput.KeepsFocus tiUpdate) (m : model) (hreach : Reachable tiUpdate m) :
    0 ≤ m.focusedInput ∧ m.focusedInput < 5 ∧ m.configInputs.length = 5 ∧
      (∀ (i : Nat) (t : textinput.Model), m.configInputs[i]? = some t →
        (t.Focused = true ↔ (i : Int) = m.focusedInput)) ∧
      (∃ t, m.configInputs[m.focusedInput.toNat]? = some t ∧ t.Focused = true) ∧
      (∀ (w : sqlx.Backend) (msg : tea.Msg), ∃ r, m.Update tiUpdate w msg = some r) := by
  have hinv : 0 ≤ m.focusedInput ∧ m.focusedInput < 5 ∧
      m.configInputs.map (fun t => t.focus) =
        (List.range' 0 5).map (fun j : Nat => decide ((j : Int) = m.focusedInput)) := by
    induction hreach with
    | init => exact ⟨by decide, by decide, by decide⟩
    | key m0 w k r _ hstep ih =>
      exact Update_focus_flags tiUpdate hfocus w m0 _ r hstep ih.1 ih.2.1 ih.2.2
    | resize m0 w width height r _ hstep ih =>
      exact Update_focus_flags tiUpdate hfocus w m0 _ r hstep ih.1 ih.2.1 ih.2.2
  obtain ⟨h0, h5, hflags⟩ := hinv
  have hlen : m.configInputs.length = 5 := by
    have := congrArg List.length hflags
    simpa using this
  have hall : ∀ (i : Nat) (t : textinput.Model), m.configInputs[i]? = some t →
      (t.Focused = true ↔ (i : Int) = m.focusedInput) := by
    intro i t hi
    have hget := congrArg (fun l => l[i]?) hflags
    simp only [List.getElem?_map, hi, Option.map_some'] at hget
    have hi5 : i < 5 := by
      have := (List.getElem?_eq_some_iff.mp hi).1
      omega
    have hr : (List.range' 0 5)[i]? = some i := by
      interval_cases i <;> rfl
    rw [hr] at hget
    simp only [Option.map_some', Option.some.injEq] at hget
    simp [textinput.Model.Focused, hget]
  refine ⟨h0, h5, hlen, hall, ?_, fun w msg => Update_total tiUpdate w m msg hlen⟩
  have hlt : m.focusedInput.toNat < m.configInputs.length := by omega
  refine ⟨m.configInputs[m.focusedInput.toNat], List.getElem?_eq_getElem hlt, ?_⟩
  exact (hall _ _ (List.getElem?_eq_getElem hlt)).mpr (by omega)

/-- C10 at the state reached from `initialModel` by one Tab. -/
theorem C10_focus_invariant_witness :
    ∃ r, initialModel.Update textinput.basicUpdate refusingBackend
        (tea.Msg.KeyMsg keyTab) = some r ∧
      0 ≤ r.m.focusedInput ∧ r.m.focusedInput < 5 ∧ r.m.configInputs.length = 5 ∧
      (∀ (i : Nat) (t : textinput.Model), r.m.configInputs[i]? = some t →
        (t.Focused = true ↔ (i : Int) = r.m.focusedInput)) ∧
      (∃ t, r.m.configInputs[r.m.focusedInput.toNat]? = some t ∧ t.Focused = true) ∧
      (∀ (w : sqlx.Backend) (msg : tea.Msg),
        ∃ r1, r.m.Update textinput.basicUpdate w msg = some r1) := by
  have h : initialModel.Update textinput.basicUpdate refusingBackend
      (tea.Msg.KeyMsg keyTab) =
      some (finishUpdate textinput.basicUpdate
        { initialModel with
          focusedInput := 1, configInputs := focusLoop 1 0 initialModel.configInputs }
        (tea.Msg.KeyMsg keyTab) []) := rfl
  exact ⟨_, h, C10_focus_invariant textinput.basicUpdate basicUpdate_keepsFocus _
    (Reachable.key initialModel refusingBackend keyTab _ Reachable.init h)⟩
